import Mathlib

/-! credentials-cli

A shallow embedding of the use cases of `credentials-cli.go` and `mgmt.go`
(listing formats, downloading a credential, creating and revoking
credentials) and the properties of them that the specification states.

Conventions of the embedding.

* The package-level `options` struct is the `Options` argument of every
  function.
* Go's `error` result is `Option Error` (`none` is `nil`); a `(T, error)`
  result is `Except Error T`.
* Everything outside the program is explicit state, `World`: the state of
  the collaborators behind the `credentials` library (`outside`), the trace
  of calls made to them (`calls`), the file system, standard output, and two
  schedules that decide which `os.Create` and `Write` calls fail.
* The behaviour of the library is a parameter, `Env`: every library function
  is a transformer of the outside state that also yields the call's result.
-/

set_option linter.dupNamespace false

namespace CredentialsCli

/-- Go's `error` as built by `errors.New`: the message. -/
abbrev Error := String

/-- Go's `[]byte`. -/
abbrev Bytes := List UInt8

/-- Go's `string(b)` for a byte slice: the same bytes, one character each. -/
def goString (b : Bytes) : String :=
  String.mk (b.map (fun x => Char.ofNat x.toNat))

/-- The `options` struct of `credentials-cli.go` (the fields read outside `main`). -/
structure Options where
  TokenFile : String
  Bucket : String
  Project : String
  Verbose : Bool
  OutputFormat : String
  SvcAccountKey : String
  User : String
  Sign : Bool
  SigningCert : String
  SigningKey : String
  Identity : String
  McIdentifier : String
  McName : String
  McDescription : String
  Endpoint : String
  Hostname : String
  Allocator : String
  Soc : String

/-- The library's `Client` as this program uses it: whatever the constructor
loaded (`auth`) and the settings the chained setters store. -/
structure Client where
  auth : String
  Project : String
  Bucket : String
  McIdentifier : String
  McName : String
  McDescription : String
  Soc : String
  Signing : Option (String × String)
  User : String
  deriving DecidableEq

def Client.SetProject (c : Client) (v : String) : Client := { c with Project := v }
def Client.SetBucket (c : Client) (v : String) : Client := { c with Bucket := v }
def Client.SetMcIdentifier (c : Client) (v : String) : Client := { c with McIdentifier := v }
def Client.SetMcName (c : Client) (v : String) : Client := { c with McName := v }
def Client.SetMcDescription (c : Client) (v : String) : Client := { c with McDescription := v }
def Client.SetSoc (c : Client) (v : String) : Client := { c with Soc := v }
def Client.SetSigning (c : Client) (key cert : String) : Client :=
  { c with Signing := some (key, cert) }
def Client.SetUser (c : Client) (v : String) : Client := { c with User := v }

/-- One entry of `GetFormats()`. -/
structure Format where
  Id : String
  Description : String
  deriving DecidableEq

/-- One fragment returned by `Get`: the fields `downloadCredential` reads. -/
structure Payload where
  Description : String
  Disposition : String
  Filename : String
  Payload : Bytes
  deriving DecidableEq

/-- The `creds.Credential` interface: the methods this program calls.
`Get` is the remote fetch, a transformer of the outside state. -/
structure Credential (ρ : Type) where
  GetId : String
  GetFormats : List Format
  Get : Client → String → ρ → ρ × Except Error (List Payload)

/-- A call made to a collaborator (the `credentials` library or a credential). -/
inductive Call where
  | NewSaClient (key : String)
  | NewClientFromTokenFile (file : String)
  | GetEmailAddress
  | GetIndex (email : String)
  | Get (id format : String)
  | GetFormats (id : String)
  | CreateWebCredential (user identity : String)
  | CreateVpnCredential (user identity : String)
  | CreateVpnServiceCredential (user identity hostname allocator : String)
  | CreateProbeCredential (user identity endpoint : String)
  | RevokeWebCredential (user identity : String)
  | RevokeVpnCredential (user identity : String)
  | RevokeProbeCredential (user identity : String)
  | RevokeVpnServiceCredential (user identity : String)
  | RevokeAll (user : String)
  deriving DecidableEq

/-- The behaviour of the `credentials` library, over an outside state `ρ`. -/
structure Env (ρ : Type) where
  NewSaClient : String → ρ → ρ × Except Error Client
  NewClientFromTokenFile : String → ρ → ρ × Except Error Client
  GetEmailAddress : Client → ρ → ρ × Except Error String
  GetIndex : Client → String → ρ → ρ × Except Error (List (Credential ρ))
  CreateWebCredential : Client → String → String → ρ → ρ × Option Error
  CreateVpnCredential : Client → String → String → ρ → ρ × Option Error
  CreateVpnServiceCredential :
    Client → String → String → String → String → ρ → ρ × Option Error
  CreateProbeCredential : Client → String → String → String → ρ → ρ × Option Error
  RevokeWebCredential : Client → String → String → ρ → ρ × Option Error
  RevokeVpnCredential : Client → String → String → ρ → ρ × Option Error
  RevokeProbeCredential : Client → String → String → ρ → ρ × Option Error
  RevokeVpnServiceCredential : Client → String → String → ρ → ρ × Option Error
  RevokeAll : Client → String → ρ → ρ × Option Error

/-- Everything outside the program.  `createFaults` and `writeFaults` are the
injected failures: each `os.Create` (each `Write`) consumes the head of its
schedule, and fails when that head is `some`; an exhausted schedule injects
nothing.  A failed `Write` carries the number of bytes that reached the file. -/
structure World (ρ : Type) where
  outside : ρ
  calls : List Call
  files : String → Option Bytes
  stdout : String
  createFaults : List (Option Error)
  writeFaults : List (Option Nat)

variable {ρ : Type}

/-- A collaborator call: run it on the outside state and record it. -/
def call {α : Type} (c : Call) (f : ρ → ρ × α) (w : World ρ) : World ρ × α :=
  ({ w with outside := (f w.outside).1, calls := w.calls ++ [c] }, (f w.outside).2)

/-- `fmt.Printf` to standard output. -/
def printf (s : String) (w : World ρ) : World ρ :=
  { w with stdout := w.stdout ++ s }

/-- The file system with the content of one file replaced. -/
def setFile (files : String → Option Bytes) (name : String) (data : Bytes) :
    String → Option Bytes :=
  fun n => if n = name then some data else files n

/-- The failure the next operation of a schedule runs into, if any. -/
def pending {α : Type} (schedule : List (Option α)) : Option α :=
  match schedule with
  | some x :: _ => some x
  | _ => none

/-- `os.Create(name)`: on success the file exists and is empty (created or
truncated) and the handle, positioned at offset 0, is returned; on failure
nothing changes in the file system. -/
def osCreate (name : String) (w : World ρ) : World ρ × Except Error String :=
  match pending w.createFaults with
  | some e => ({ w with createFaults := w.createFaults.tail }, .error e)
  | none =>
    ({ w with createFaults := w.createFaults.tail,
              files := setFile w.files name [] }, .ok name)

/-- `f.Write(data)` on a handle fresh from `os.Create`: the bytes written land
at offset 0 of the empty file.  A failing write leaves the first `k` bytes. -/
def fileWrite (f : String) (data : Bytes) (w : World ρ) : World ρ × Option Error :=
  match pending w.writeFaults with
  | some k =>
    ({ w with writeFaults := w.writeFaults.tail,
              files := setFile w.files f (data.take k) },
     some "write failed")
  | none =>
    ({ w with writeFaults := w.writeFaults.tail,
              files := setFile w.files f data }, none)

/-- `getMyEmail` of `credentials-cli.go`. -/
def getMyEmail (env : Env ρ) (opts : Options) (client : Client) (w : World ρ) :
    World ρ × Except Error String :=
  if opts.User ≠ "" then
    (w, .ok opts.User)
  else
    call .GetEmailAddress (env.GetEmailAddress client) w

/-- `getClient` of `credentials-cli.go`. -/
def getClient (env : Env ρ) (opts : Options) (w : World ρ) :
    World ρ × Except Error Client :=
  let made :=
    if opts.SvcAccountKey ≠ "" then
      call (.NewSaClient opts.SvcAccountKey) (env.NewSaClient opts.SvcAccountKey) w
    else
      call (.NewClientFromTokenFile opts.TokenFile)
        (env.NewClientFromTokenFile opts.TokenFile) w
  match made with
  | (w, .error e) => (w, .error e)
  | (w, .ok client) =>
    let client :=
      ((((client.SetProject opts.Project).SetBucket opts.Bucket).SetMcIdentifier
        opts.McIdentifier).SetMcName opts.McName).SetMcDescription opts.McDescription
    let client := if opts.Soc ≠ "" then client.SetSoc opts.Soc else client
    let client :=
      if opts.Sign then client.SetSigning opts.SigningKey opts.SigningCert else client
    let client := if opts.User ≠ "" then client.SetUser opts.User else client
    (w, .ok client)

/-- `createWeb` of `mgmt.go`. -/
def createWeb (env : Env ρ) (opts : Options) (w : World ρ) : World ρ × Option Error :=
  if opts.User = "" then (w, some "Must specify user")
  else if opts.Identity = "" then (w, some "Must specify identity")
  else
    match getClient env opts w with
    | (w, .error e) => (w, some e)
    | (w, .ok client) =>
      match call (.CreateWebCredential opts.User opts.Identity)
          (env.CreateWebCredential client opts.User opts.Identity) w with
      | (w, some e) => (w, some e)
      | (w, none) => (w, none)

/-- `createVpn` of `mgmt.go`. -/
def createVpn (env : Env ρ) (opts : Options) (w : World ρ) : World ρ × Option Error :=
  if opts.User = "" then (w, some "Must specify user")
  else if opts.Identity = "" then (w, some "Must specify identity")
  else
    match getClient env opts w with
    | (w, .error e) => (w, some e)
    | (w, .ok client) =>
      match call (.CreateVpnCredential opts.User opts.Identity)
          (env.CreateVpnCredential client opts.User opts.Identity) w with
      | (w, some e) => (w, some e)
      | (w, none) => (w, none)

/-- `createVpnService` of `mgmt.go`. -/
def createVpnService (env : Env ρ) (opts : Options) (w : World ρ) :
    World ρ × Option Error :=
  if opts.User = "" then (w, some "Must specify user")
  else if opts.Identity = "" then (w, some "Must specify identity")
  else if opts.Allocator = "" then (w, some "Must specify allocator")
  else if opts.Hostname = "" then (w, some "Must specify hostname")
  else
    match getClient env opts w with
    | (w, .error e) => (w, some e)
    | (w, .ok client) =>
      match call
          (.CreateVpnServiceCredential opts.User opts.Identity opts.Hostname opts.Allocator)
          (env.CreateVpnServiceCredential client opts.User opts.Identity opts.Hostname
            opts.Allocator) w with
      | (w, some e) => (w, some e)
      | (w, none) => (w, none)

/-- `createProbe` of `mgmt.go`. -/
def createProbe (env : Env ρ) (opts : Options) (w : World ρ) : World ρ × Option Error :=
  if opts.User = "" then (w, some "Must specify user")
  else if opts.Identity = "" then (w, some "Must specify identity")
  else if opts.Endpoint = "" then (w, some "Must specify endpoint")
  else
    match getClient env opts w with
    | (w, .error e) => (w, some e)
    | (w, .ok client) =>
      match call (.CreateProbeCredential opts.User opts.Identity opts.Endpoint)
          (env.CreateProbeCredential client opts.User opts.Identity opts.Endpoint) w with
      | (w, some e) => (w, some e)
      | (w, none) => (w, none)

/-- `revokeAll` of `mgmt.go`. -/
def revokeAll (env : Env ρ) (opts : Options) (w : World ρ) : World ρ × Option Error :=
  if opts.User = "" then (w, some "Must specify user")
  else if opts.Identity = "" then (w, some "Must specify identity")
  else
    match getClient env opts w with
    | (w, .error e) => (w, some e)
    | (w, .ok client) =>
      match call (.RevokeAll opts.User) (env.RevokeAll client opts.User) w with
      | (w, some e) => (w, some e)
      | (w, none) => (w, none)

/-- The delivery loop of `downloadCredential` (`for _, pay := range(pays)`).
The result of `f.Write` is discarded, as in the source; `f.Close()` changes
nothing that is modelled. -/
def deliver (pays : List Payload) (w : World ρ) : World ρ × Option Error :=
  match pays with
  | [] => (w, none)
  | pay :: rest =>
    let stored : World ρ × Option Error :=
      if pay.Disposition = "store" then
        match osCreate pay.Filename w with
        | (w, .error e) => (w, some e)
        | (w, .ok f) =>
          let w := (fileWrite f pay.Payload w).1
          (printf (pay.Description ++ " written to " ++ pay.Filename ++ "\n") w, none)
      else (w, none)
    match stored with
    | (w, some e) => (w, some e)
    | (w, none) =>
      let w :=
        if pay.Disposition = "show" then
          printf (pay.Description ++ ": " ++ goString pay.Payload ++ "\n") w
        else w
      deliver rest w

/-- The selection loop shared, statement for statement, by `downloadCredential`
and `listFormats`: `selected` starts `nil` and every matching entry of the
index overwrites it. -/
def selectCredential (credlist : List (Credential ρ)) (credName : String) :
    Option (Credential ρ) :=
  credlist.foldl (fun selected cred => if cred.GetId = credName then some cred else selected)
    none

/-- The part of `downloadCredential` after the selection (from `selected.Get`
to the end): fetch the selected credential, then deliver the payloads. -/
def downloadSelected (opts : Options) (client : Client) (selected : Credential ρ)
    (w : World ρ) : World ρ × Option Error :=
  match call (.Get selected.GetId opts.OutputFormat)
      (selected.Get client opts.OutputFormat) w with
  | (w, .error e) => (w, some e)
  | (w, .ok pays) => deliver pays w

/-- `downloadCredential` of `credentials-cli.go`. -/
def downloadCredential (env : Env ρ) (opts : Options) (credName : String) (w : World ρ) :
    World ρ × Option Error :=
  match getClient env opts w with
  | (w, .error e) => (w, some e)
  | (w, .ok client) =>
    match getMyEmail env opts client w with
    | (w, .error e) => (w, some e)
    | (w, .ok email) =>
      match call (.GetIndex email) (env.GetIndex client email) w with
      | (w, .error e) => (w, some e)
      | (w, .ok credlist) =>
        match selectCredential credlist credName with
        | none => (w, some "Credential not found")
        | some selected => downloadSelected opts client selected w

/-- The printing loop of `listFormats`: one `"%-20s - %s\n"` line per format
(the id left-justified, padded with spaces to at least 20 characters). -/
def printFormats (fs : List Format) (w : World ρ) : World ρ :=
  fs.foldl
    (fun w f =>
      printf (f.Id ++ String.mk (List.replicate (20 - f.Id.length) ' ') ++ " - "
        ++ f.Description ++ "\n") w)
    w

/-- The part of `listFormats` after the selection: ask the selected credential
for its formats and print them.  (The `err` tested after `GetFormats()` is the
one `GetIndex` returned, which is `nil` here.) -/
def listSelected (selected : Credential ρ) (w : World ρ) : World ρ × Option Error :=
  let w := { w with calls := w.calls ++ [Call.GetFormats selected.GetId] }
  (printFormats selected.GetFormats w, none)

/-- `listFormats` of `credentials-cli.go`. -/
def listFormats (env : Env ρ) (opts : Options) (credName : String) (w : World ρ) :
    World ρ × Option Error :=
  match getClient env opts w with
  | (w, .error e) => (w, some e)
  | (w, .ok client) =>
    match getMyEmail env opts client w with
    | (w, .error e) => (w, some e)
    | (w, .ok email) =>
      match call (.GetIndex email) (env.GetIndex client email) w with
      | (w, .error e) => (w, some e)
      | (w, .ok credlist) =>
        match selectCredential credlist credName with
        | none => (w, some "Credential not found")
        | some selected => listSelected selected w

/-! ## Vocabulary of the statements -/

/-- The four create operations of `mgmt.go`. -/
inductive CreateOp where
  | web
  | vpn
  | vpnService
  | probe
  deriving DecidableEq

/-- The function of `mgmt.go` behind each create operation. -/
def CreateOp.run (op : CreateOp) (env : Env ρ) (opts : Options) (w : World ρ) :
    World ρ × Option Error :=
  match op with
  | .web => createWeb env opts w
  | .vpn => createVpn env opts w
  | .vpnService => createVpnService env opts w
  | .probe => createProbe env opts w

/-- The options each create operation tests against `""` before `getClient`,
in the order of its tests, each with the name its error message uses. -/
def CreateOp.checked (op : CreateOp) : List (String × (Options → String)) :=
  match op with
  | .web => [("user", Options.User), ("identity", Options.Identity)]
  | .vpn => [("user", Options.User), ("identity", Options.Identity)]
  | .vpnService =>
    [("user", Options.User), ("identity", Options.Identity),
     ("allocator", Options.Allocator), ("hostname", Options.Hostname)]
  | .probe =>
    [("user", Options.User), ("identity", Options.Identity),
     ("endpoint", Options.Endpoint)]

/-- The remote create call of each operation, as recorded in the trace. -/
def CreateOp.remoteCall (op : CreateOp) (opts : Options) : Call :=
  match op with
  | .web => .CreateWebCredential opts.User opts.Identity
  | .vpn => .CreateVpnCredential opts.User opts.Identity
  | .vpnService =>
    .CreateVpnServiceCredential opts.User opts.Identity opts.Hostname opts.Allocator
  | .probe => .CreateProbeCredential opts.User opts.Identity opts.Endpoint

/-- The remote create call of each operation, as the library runs it. -/
def CreateOp.remote (op : CreateOp) (env : Env ρ) (client : Client) (opts : Options) :
    ρ → ρ × Option Error :=
  match op with
  | .web => env.CreateWebCredential client opts.User opts.Identity
  | .vpn => env.CreateVpnCredential client opts.User opts.Identity
  | .vpnService =>
    env.CreateVpnServiceCredential client opts.User opts.Identity opts.Hostname
      opts.Allocator
  | .probe => env.CreateProbeCredential client opts.User opts.Identity opts.Endpoint

/-- An operation gets past its local checks when it goes on to call a
collaborator (the first one is the client constructor inside `getClient`). -/
def CreateOp.passesLocalValidation (op : CreateOp) (env : Env ρ) (opts : Options)
    (w : World ρ) : Prop :=
  (op.run env opts w).1.calls ≠ w.calls

/-- The constructor call `getClient` makes for the given options. -/
def clientCall (opts : Options) : Call :=
  if opts.SvcAccountKey ≠ "" then .NewSaClient opts.SvcAccountKey
  else .NewClientFromTokenFile opts.TokenFile

/-- The first three steps of `downloadCredential` and of `listFormats` succeed:
`getClient` yields `client`, `getMyEmail` an address and `GetIndex` the index
`credlist`, which leaves the world `w3`. -/
def IndexFetched (env : Env ρ) (opts : Options) (w : World ρ) (client : Client)
    (w3 : World ρ) (credlist : List (Credential ρ)) : Prop :=
  ∃ w1 w2 email,
    getClient env opts w = (w1, .ok client) ∧
    getMyEmail env opts client w1 = (w2, .ok email) ∧
    call (.GetIndex email) (env.GetIndex client email) w2 = (w3, .ok credlist)

/-- The calls that ask a credential for something: `Get` and `GetFormats`. -/
def Call.isFetch (c : Call) : Bool :=
  match c with
  | .Get _ _ => true
  | .GetFormats _ => true
  | _ => false

/-- No failure is injected: every `os.Create` and every `Write` succeeds. -/
def World.noFaults (w : World ρ) : Prop :=
  (∀ x ∈ w.createFaults, x = none) ∧ (∀ x ∈ w.writeFaults, x = none)

/-- The line the specification gives for a payload: `<Description> written to
<Filename>` for a `store` payload, `<Description>: <Payload as text>` for a
`show` payload.  A payload of any other disposition has no line. -/
def deliveryLine (p : Payload) : String :=
  if p.Disposition = "store" then p.Description ++ " written to " ++ p.Filename ++ "\n"
  else if p.Disposition = "show" then p.Description ++ ": " ++ goString p.Payload ++ "\n"
  else ""

/-- The lines of a payload sequence, concatenated in order. -/
def deliveryOutput (pays : List Payload) : String :=
  match pays with
  | [] => ""
  | p :: rest => deliveryLine p ++ deliveryOutput rest

/-- The files the specification expects after a delivery: the initial ones
with, in order, the file named by each `store` payload set to its bytes. -/
def deliveredFiles (files : String → Option Bytes) (pays : List Payload) :
    String → Option Bytes :=
  (pays.filter (fun p => p.Disposition = "store")).foldl
    (fun fs p => setFile fs p.Filename p.Payload) files

/-! ## A concrete environment for the examples -/

/-- A client as a constructor hands it out. -/
def freshClient (auth : String) : Client :=
  { auth := auth, Project := "", Bucket := "", McIdentifier := "", McName := "",
    McDescription := "", Soc := "", Signing := none, User := "" }

/-- A web credential: two formats; fetching one of them yields a certificate to
show and a key to store, fetching anything else is refused by `Get` itself. -/
def webCred : Credential (List String) where
  GetId := "web1"
  GetFormats := [⟨"pem", "PEM format"⟩, ⟨"p12", "PKCS12 format"⟩]
  Get := fun _ format r =>
    if format = "pem" then
      (r, .ok [⟨"Certificate", "show", "", [45, 45]⟩,
               ⟨"Private key", "store", "web1.key", [1, 2, 3]⟩])
    else if format = "p12" then
      (r, .ok [⟨"P12 bundle", "store", "web1.p12", [4, 5]⟩])
    else (r, .error "Output format not known")

/-- A VPN credential with a single format. -/
def vpnCred : Credential (List String) where
  GetId := "vpn1"
  GetFormats := [⟨"ovpn", "OpenVPN configuration"⟩]
  Get := fun _ _ r => (r, .ok [⟨"VPN configuration", "store", "vpn1.ovpn", [7]⟩])

/-- A library in which every call succeeds.  Its outside state is the list of
credential types the remote store has revoked. -/
def exampleEnv : Env (List String) where
  NewSaClient := fun key r => (r, .ok (freshClient key))
  NewClientFromTokenFile := fun file r => (r, .ok (freshClient file))
  GetEmailAddress := fun _ r => (r, .ok "alice@example.com")
  GetIndex := fun _ _ r => (r, .ok [webCred, vpnCred])
  CreateWebCredential := fun _ _ _ r => (r, none)
  CreateVpnCredential := fun _ _ _ r => (r, none)
  CreateVpnServiceCredential := fun _ _ _ _ _ r => (r, none)
  CreateProbeCredential := fun _ _ _ _ r => (r, none)
  RevokeWebCredential := fun _ _ _ r => (r ++ ["web"], none)
  RevokeVpnCredential := fun _ _ _ r => (r ++ ["vpn"], none)
  RevokeProbeCredential := fun _ _ _ r => (r ++ ["probe"], none)
  RevokeVpnServiceCredential := fun _ _ _ r => (r ++ ["vpn-service"], none)
  RevokeAll := fun _ _ r => (r ++ ["web", "vpn", "probe"], none)

/-- The defaults of the flags, a user and an identity. -/
def exampleOptions : Options where
  TokenFile := ".credentials-cli-auth"
  Bucket := "example-credentials"
  Project := "example"
  Verbose := false
  OutputFormat := "pem"
  SvcAccountKey := ""
  User := "alice@example.com"
  Sign := false
  SigningCert := ""
  SigningKey := ""
  Identity := "alice-web"
  McIdentifier := ""
  McName := ""
  McDescription := ""
  Endpoint := ""
  Hostname := ""
  Allocator := ""
  Soc := ""

/-- A second credential with the id of `webCred` and other formats. -/
def webCredAgain : Credential (List String) where
  GetId := "web1"
  GetFormats := [⟨"der", "DER format"⟩]
  Get := fun _ _ r => (r, .ok [])

/-- The example library with an index that holds the id `web1` twice. -/
def duplicateEnv : Env (List String) :=
  { exampleEnv with GetIndex := fun _ _ r => (r, .ok [webCred, webCredAgain, vpnCred]) }

/-- The client `getClient` builds from the example options. -/
def exampleClient : Client :=
  { auth := ".credentials-cli-auth", Project := "example", Bucket := "example-credentials",
    McIdentifier := "", McName := "", McDescription := "", Soc := "", Signing := none,
    User := "alice@example.com" }

/-- The example options without the `-u` user. -/
def optionsNoUser : Options := { exampleOptions with User := "" }

/-- Nothing called yet, no file, nothing printed, no injected failure. -/
def emptyWorld : World (List String) where
  outside := []
  calls := []
  files := fun _ => none
  stdout := ""
  createFaults := []
  writeFaults := []

/-- The empty world after client construction and the index query. -/
def indexedWorld : World (List String) :=
  { emptyWorld with
    calls := [Call.NewClientFromTokenFile ".credentials-cli-auth",
              Call.GetIndex "alice@example.com"] }

/-- The example options with an output format `webCred` does not list. -/
def optionsDer : Options := { exampleOptions with OutputFormat := "der" }

/-- The key file exists already and the next `Write` fails after one byte. -/
def writeFaultWorld : World (List String) :=
  { emptyWorld with
    files := fun n => if n = "web1.key" then some [9, 9, 9, 9] else none,
    writeFaults := [some 1] }

/-- The key file exists already and the next `os.Create` fails. -/
def createFaultWorld : World (List String) :=
  { emptyWorld with
    files := fun n => if n = "web1.key" then some [9, 9, 9, 9] else none,
    createFaults := [some "permission denied"] }

/-- The key payload of `webCred`. -/
def keyPayload : Payload := ⟨"Private key", "store", "web1.key", [1, 2, 3]⟩

/-- The certificate payload of `webCred`. -/
def certPayload : Payload := ⟨"Certificate", "show", "", [45, 45]⟩

/-- A library whose `RevokeAll` revokes the web and probe credentials, fails on
the VPN credential and reports the failure. -/
def vpnFailsEnv : Env (List String) :=
  { exampleEnv with RevokeAll := fun _ _ r => (r ++ ["web", "probe"], some "revocation failed") }

/-- A library whose `RevokeAll` revokes nothing and reports the failure. -/
def nothingRevokedEnv : Env (List String) :=
  { exampleEnv with RevokeAll := fun _ _ r => (r, some "revocation failed") }

/-! ## Helper lemmas -/

theorem call_calls {α : Type} (c : Call) (f : ρ → ρ × α) (w : World ρ) :
    (call c f w).1.calls = w.calls ++ [c] := rfl

theorem getClient_calls (env : Env ρ) (opts : Options) (w : World ρ) :
    (getClient env opts w).1.calls = w.calls ++ [clientCall opts] := by
  unfold getClient clientCall
  by_cases h : opts.SvcAccountKey = ""
  · simp only [h, ne_eq, not_true_eq_false, if_false]
    cases hr : (env.NewClientFromTokenFile opts.TokenFile w.outside).2 <;> simp [call, hr]
  · simp only [h, ne_eq, not_false_eq_true, if_true]
    cases hr : (env.NewSaClient opts.SvcAccountKey w.outside).2 <;> simp [call, hr]

theorem calls_append_ne (l : List Call) (c : Call) (m : List Call) : l ++ c :: m ≠ l := by
  intro h
  have := congrArg List.length h
  simp at this

/-- Past the local checks, a create operation is `getClient` followed by its
remote create call, whose result it returns. -/
theorem CreateOp.run_of_checked (op : CreateOp) (env : Env ρ) (opts : Options) (w : World ρ)
    (h : ∀ f ∈ op.checked, f.2 opts ≠ "") :
    op.run env opts w =
      match getClient env opts w with
      | (w1, .error e) => (w1, some e)
      | (w1, .ok client) => call (op.remoteCall opts) (op.remote env client opts) w1 := by
  cases op <;>
    simp only [CreateOp.checked, List.mem_cons, List.mem_singleton, forall_eq_or_imp,
      forall_eq, List.not_mem_nil, false_implies, implies_true, and_true, ne_eq] at h
  · obtain ⟨hU, hI⟩ := h
    simp only [CreateOp.run, createWeb, hU, hI, if_false, CreateOp.remoteCall, CreateOp.remote]
    rcases getClient env opts w with ⟨w1, e | client⟩
    · rfl
    · simp only
      rcases call (Call.CreateWebCredential opts.User opts.Identity)
        (env.CreateWebCredential client opts.User opts.Identity) w1 with ⟨w2, _ | e⟩ <;> rfl
  · obtain ⟨hU, hI⟩ := h
    simp only [CreateOp.run, createVpn, hU, hI, if_false, CreateOp.remoteCall, CreateOp.remote]
    rcases getClient env opts w with ⟨w1, e | client⟩
    · rfl
    · simp only
      rcases call (Call.CreateVpnCredential opts.User opts.Identity)
        (env.CreateVpnCredential client opts.User opts.Identity) w1 with ⟨w2, _ | e⟩ <;> rfl
  · obtain ⟨hU, hI, hA, hH⟩ := h
    simp only [CreateOp.run, createVpnService, hU, hI, hA, hH, if_false, CreateOp.remoteCall,
      CreateOp.remote]
    rcases getClient env opts w with ⟨w1, e | client⟩
    · rfl
    · simp only
      rcases call
        (Call.CreateVpnServiceCredential opts.User opts.Identity opts.Hostname opts.Allocator)
        (env.CreateVpnServiceCredential client opts.User opts.Identity opts.Hostname
          opts.Allocator) w1 with ⟨w2, _ | e⟩ <;> rfl
  · obtain ⟨hU, hI, hE⟩ := h
    simp only [CreateOp.run, createProbe, hU, hI, hE, if_false, CreateOp.remoteCall,
      CreateOp.remote]
    rcases getClient env opts w with ⟨w1, e | client⟩
    · rfl
    · simp only
      rcases call (Call.CreateProbeCredential opts.User opts.Identity opts.Endpoint)
        (env.CreateProbeCredential client opts.User opts.Identity opts.Endpoint) w1
        with ⟨w2, _ | e⟩ <;> rfl

/-- A create operation stops at the first option of its list that is empty,
with the world as it found it. -/
theorem CreateOp.run_of_empty (op : CreateOp) (env : Env ρ) (opts : Options) (w : World ρ)
    (h : ∃ f ∈ op.checked, f.2 opts = "") :
    ∃ f ∈ op.checked, f.2 opts = "" ∧ op.run env opts w = (w, some ("Must specify " ++ f.1)) := by
  by_cases hU : opts.User = ""
  · refine ⟨("user", Options.User), by cases op <;> simp [CreateOp.checked], hU, ?_⟩
    cases op <;>
      simp [CreateOp.run, createWeb, createVpn, createVpnService, createProbe, hU]
  by_cases hI : opts.Identity = ""
  · refine ⟨("identity", Options.Identity), by cases op <;> simp [CreateOp.checked], hI, ?_⟩
    cases op <;>
      simp [CreateOp.run, createWeb, createVpn, createVpnService, createProbe, hU, hI]
  cases op
  · simp [CreateOp.checked, hU, hI] at h
  · simp [CreateOp.checked, hU, hI] at h
  · by_cases hA : opts.Allocator = ""
    · exact ⟨("allocator", Options.Allocator), by simp [CreateOp.checked], hA,
        by simp [CreateOp.run, createVpnService, hU, hI, hA]⟩
    · have hH : opts.Hostname = "" := by simpa [CreateOp.checked, hU, hI, hA] using h
      exact ⟨("hostname", Options.Hostname), by simp [CreateOp.checked], hH,
        by simp [CreateOp.run, createVpnService, hU, hI, hA, hH]⟩
  · have hE : opts.Endpoint = "" := by simpa [CreateOp.checked, hU, hI] using h
    exact ⟨("endpoint", Options.Endpoint), by simp [CreateOp.checked], hE,
      by simp [CreateOp.run, createProbe, hU, hI, hE]⟩

/-- Past its two local checks, `revokeAll` is `getClient` followed by the one
remote call `RevokeAll(user)`, whose result it returns. -/
theorem revokeAll_of_checked (env : Env ρ) (opts : Options) (w : World ρ)
    (hU : opts.User ≠ "") (hI : opts.Identity ≠ "") :
    revokeAll env opts w =
      match getClient env opts w with
      | (w1, .error e) => (w1, some e)
      | (w1, .ok client) => call (.RevokeAll opts.User) (env.RevokeAll client opts.User) w1 := by
  simp only [revokeAll, hU, hI, if_false]
  rcases getClient env opts w with ⟨w1, e | client⟩
  · rfl
  · simp only
    rcases call (Call.RevokeAll opts.User) (env.RevokeAll client opts.User) w1
      with ⟨w2, _ | e⟩ <;> rfl

theorem selectCredential_append (l : List (Credential ρ)) (c : Credential ρ) (n : String) :
    selectCredential (l ++ [c]) n = if c.GetId = n then some c else selectCredential l n := by
  simp [selectCredential, List.foldl_append]

theorem selectCredential_none (l : List (Credential ρ)) (n : String)
    (h : ∀ c ∈ l, c.GetId ≠ n) : selectCredential l n = none := by
  induction l using List.reverseRecOn with
  | nil => rfl
  | append_singleton l c ih =>
    rw [selectCredential_append, if_neg (h c (by simp))]
    exact ih (fun d hd => h d (by simp [hd]))

/-- The selection loop returns the entry at the greatest matching position. -/
theorem selectCredential_last (l : List (Credential ρ)) (n : String)
    (h : ∃ c ∈ l, c.GetId = n) :
    ∃ (i : Nat) (s : Credential ρ), l[i]? = some s ∧ s.GetId = n ∧
      (∀ (j : Nat) (c : Credential ρ), i < j → l[j]? = some c → c.GetId ≠ n) ∧
      selectCredential l n = some s := by
  induction l using List.reverseRecOn with
  | nil => simp at h
  | append_singleton l c ih =>
    by_cases hc : c.GetId = n
    · refine ⟨l.length, c, by simp, hc, fun j d hj hd => ?_, ?_⟩
      · have : (l ++ [c])[j]? = none := by
          apply List.getElem?_eq_none
          simp only [List.length_append, List.length_singleton]
          omega
        rw [this] at hd
        cases hd
      · rw [selectCredential_append, if_pos hc]
    · have h0 : ∃ d ∈ l, d.GetId = n := by
        obtain ⟨d, hd, hdn⟩ := h
        rcases List.mem_append.mp hd with hd | hd
        · exact ⟨d, hd, hdn⟩
        · simp only [List.mem_singleton] at hd
          subst hd
          exact absurd hdn hc
      obtain ⟨i, s, hi, hs, hlast, hsel⟩ := ih h0
      have hil : i < l.length := by
        by_contra hge
        rw [List.getElem?_eq_none (by omega)] at hi
        cases hi
      refine ⟨i, s, ?_, hs, fun j d hj hd => ?_, ?_⟩
      · rw [List.getElem?_append_left hil]
        exact hi
      · by_cases hjl : j < l.length
        · rw [List.getElem?_append_left hjl] at hd
          exact hlast j d hj hd
        · by_cases hje : j = l.length
          · subst hje
            simp at hd
            subst hd
            exact hc
          · rw [List.getElem?_eq_none
                (by simp only [List.length_append, List.length_singleton]; omega)] at hd
            cases hd
      · rw [selectCredential_append, if_neg hc]
        exact hsel

theorem selectCredential_mem (l : List (Credential ρ)) (n : String) (s : Credential ρ)
    (h : selectCredential l n = some s) : s ∈ l ∧ s.GetId = n := by
  induction l using List.reverseRecOn with
  | nil => cases h
  | append_singleton l c ih =>
    rw [selectCredential_append] at h
    by_cases hc : c.GetId = n
    · rw [if_pos hc] at h
      cases h
      exact ⟨by simp, hc⟩
    · rw [if_neg hc] at h
      exact ⟨by simp [(ih h).1], (ih h).2⟩

theorem downloadCredential_of_index (env : Env ρ) (opts : Options) (w : World ρ)
    (client : Client) (w3 : World ρ) (credlist : List (Credential ρ)) (n : String)
    (h : IndexFetched env opts w client w3 credlist) :
    downloadCredential env opts n w =
      match selectCredential credlist n with
      | none => (w3, some "Credential not found")
      | some selected => downloadSelected opts client selected w3 := by
  obtain ⟨w1, w2, email, h1, h2, h3⟩ := h
  simp only [downloadCredential, h1, h2, h3]

theorem listFormats_of_index (env : Env ρ) (opts : Options) (w : World ρ)
    (client : Client) (w3 : World ρ) (credlist : List (Credential ρ)) (n : String)
    (h : IndexFetched env opts w client w3 credlist) :
    listFormats env opts n w =
      match selectCredential credlist n with
      | none => (w3, some "Credential not found")
      | some selected => listSelected selected w3 := by
  obtain ⟨w1, w2, email, h1, h2, h3⟩ := h
  simp only [listFormats, h1, h2, h3]

/-- Fetching the index asks no credential for anything. -/
theorem IndexFetched.no_fetch (env : Env ρ) (opts : Options) (w : World ρ)
    (client : Client) (w3 : World ρ) (credlist : List (Credential ρ))
    (h : IndexFetched env opts w client w3 credlist) :
    w3.calls.filter Call.isFetch = w.calls.filter Call.isFetch := by
  obtain ⟨w1, w2, email, h1, h2, h3⟩ := h
  have c1 : w1.calls = w.calls ++ [clientCall opts] := by
    have := getClient_calls env opts w
    rw [h1] at this
    exact this
  have c2 : w2.calls.filter Call.isFetch = w1.calls.filter Call.isFetch := by
    unfold getMyEmail at h2
    by_cases hu : opts.User = ""
    · simp only [hu, ne_eq, not_true_eq_false, if_false] at h2
      have := congrArg (fun r => r.1.calls) h2
      simp only [call_calls] at this
      rw [← this]
      simp [Call.isFetch]
    · simp only [hu, ne_eq, not_false_eq_true, if_true, Prod.mk.injEq] at h2
      rw [h2.1]
  have c3 : w3.calls = w2.calls ++ [Call.GetIndex email] := by
    have := congrArg (fun r => r.1.calls) h3
    simp only [call_calls] at this
    exact this.symm
  have hcc : Call.isFetch (clientCall opts) = false := by
    unfold clientCall
    split <;> rfl
  have hgi : Call.isFetch (Call.GetIndex email) = false := rfl
  rw [c3, List.filter_append, c2, c1, List.filter_append]
  simp [hcc, hgi]

theorem deliver_cons_create_failed (pay : Payload) (rest : List Payload) (w : World ρ)
    (e : Error) (hs : pay.Disposition = "store") (hp : pending w.createFaults = some e) :
    deliver (pay :: rest) w = ({ w with createFaults := w.createFaults.tail }, some e) := by
  simp only [deliver, hs, if_true, osCreate, hp]

theorem deliver_cons_stored (pay : Payload) (rest : List Payload) (w : World ρ)
    (hs : pay.Disposition = "store") (hp : pending w.createFaults = none) :
    deliver (pay :: rest) w =
      deliver rest
        (printf (pay.Description ++ " written to " ++ pay.Filename ++ "\n")
          (fileWrite pay.Filename pay.Payload
            { w with createFaults := w.createFaults.tail,
                     files := setFile w.files pay.Filename [] }).1) := by
  have hsh : ¬ ("store" = "show") := by decide
  simp only [deliver, hs, if_true, osCreate, hp, hsh, if_false]

theorem deliver_cons_shown (pay : Payload) (rest : List Payload) (w : World ρ)
    (hs : pay.Disposition = "show") :
    deliver (pay :: rest) w =
      deliver rest (printf (pay.Description ++ ": " ++ goString pay.Payload ++ "\n") w) := by
  have hsh : ¬ ("show" = "store") := by decide
  simp only [deliver, hs, if_true, hsh, if_false]

theorem deliver_cons_skipped (pay : Payload) (rest : List Payload) (w : World ρ)
    (h1 : pay.Disposition ≠ "store") (h2 : pay.Disposition ≠ "show") :
    deliver (pay :: rest) w = deliver rest w := by
  simp only [deliver, h1, h2, if_false]

theorem pending_of_all_none {α : Type} (l : List (Option α)) (h : ∀ x ∈ l, x = none) :
    pending l = none := by
  cases l with
  | nil => rfl
  | cons a t =>
    have := h a (by simp)
    subst this
    rfl

theorem setFile_setFile (files : String → Option Bytes) (name : String) (a b : Bytes) :
    setFile (setFile files name a) name b = setFile files name b := by
  funext n
  unfold setFile
  by_cases h : n = name <;> simp [h]

/-- The delivery loop calls no collaborator. -/
theorem deliver_calls (pays : List Payload) (w : World ρ) :
    (deliver pays w).1.calls = w.calls := by
  induction pays generalizing w with
  | nil => rfl
  | cons pay rest ih =>
    by_cases hs : pay.Disposition = "store"
    · cases hp : pending w.createFaults with
      | some e => rw [deliver_cons_create_failed pay rest w e hs hp]
      | none =>
        rw [deliver_cons_stored pay rest w hs hp, ih]
        unfold fileWrite printf
        cases pending w.writeFaults <;> rfl
    · by_cases hh : pay.Disposition = "show"
      · rw [deliver_cons_shown pay rest w hh, ih]
        rfl
      · rw [deliver_cons_skipped pay rest w hs hh, ih]

theorem emptyWorld_noFaults : emptyWorld.noFaults := by
  constructor <;> intro x hx <;> cases hx

/-! ## The claims -/

/-- C3: local precondition failures are reported before any collaborator is
called.  For each create operation and each option state in which one of the
options the operation checks is empty, the operation returns the error
`Must specify <field>` for a checked field that is empty, and the world it
returns is the one it was given: no call is added to the trace (so no client
is constructed and no create call is made), and a trace that was empty stays
empty. -/
theorem create_fails_before_any_call (op : CreateOp) (env : Env ρ) (opts : Options)
    (w : World ρ) (h : ∃ f ∈ op.checked, f.2 opts = "") :
    (∃ f ∈ op.checked, f.2 opts = "" ∧
      (op.run env opts w).2 = some ("Must specify " ++ f.1)) ∧
    (op.run env opts w).1 = w ∧
    (w.calls = [] → (op.run env opts w).1.calls = []) := by
  obtain ⟨f, hf, he, hr⟩ := CreateOp.run_of_empty op env opts w h
  refine ⟨⟨f, hf, he, by rw [hr]⟩, by rw [hr], fun hw => by rw [hr]; exact hw⟩

theorem create_fails_before_any_call_witness :
    (∃ f ∈ CreateOp.checked .vpnService, f.2 exampleOptions = "") ∧
    ((∃ f ∈ CreateOp.checked .vpnService, f.2 exampleOptions = "" ∧
      (CreateOp.run .vpnService exampleEnv exampleOptions emptyWorld).2 =
        some ("Must specify " ++ f.1)) ∧
    (CreateOp.run .vpnService exampleEnv exampleOptions emptyWorld).1 = emptyWorld ∧
    (emptyWorld.calls = [] →
      (CreateOp.run .vpnService exampleEnv exampleOptions emptyWorld).1.calls = [])) :=
  ⟨⟨("allocator", Options.Allocator), by simp [CreateOp.checked], rfl⟩,
    create_fails_before_any_call .vpnService exampleEnv exampleOptions emptyWorld
      ⟨("allocator", Options.Allocator), by simp [CreateOp.checked], rfl⟩⟩

/-- C4, as stated, fails: with a non-empty identity, an empty user and a client
that could be constructed, `createWeb` stops with `Must specify user` and calls
nothing. -/
theorem createWeb_needs_user_counterexample :
    optionsNoUser.Identity ≠ "" ∧
    (∃ client, (getClient exampleEnv optionsNoUser emptyWorld).2 = .ok client) ∧
    (createWeb exampleEnv optionsNoUser emptyWorld).2 = some "Must specify user" ∧
    (createWeb exampleEnv optionsNoUser emptyWorld).1.calls = [] :=
  ⟨by decide, ⟨_, rfl⟩, by decide, by decide⟩

/-- C4, amended: every create operation also requires the user.
`createVpnService` passes local validation iff user, identity, allocator and
hostname are all non-empty; `createProbe` iff user, identity and endpoint are;
`createWeb` and `createVpn` iff user and identity are (`CreateOp.checked`
lists them).  When they are and `getClient` yields a client, the operation is
exactly the remote create call made with that client, result included. -/
theorem create_validation_exact (op : CreateOp) (env : Env ρ) (opts : Options)
    (w : World ρ) :
    (op.passesLocalValidation env opts w ↔ ∀ f ∈ op.checked, f.2 opts ≠ "") ∧
    ((∀ f ∈ op.checked, f.2 opts ≠ "") → ∀ w1 client,
      getClient env opts w = (w1, .ok client) →
      op.run env opts w = call (op.remoteCall opts) (op.remote env client opts) w1) := by
  have key : (∀ f ∈ op.checked, f.2 opts ≠ "") → op.passesLocalValidation env opts w := by
    intro h
    unfold CreateOp.passesLocalValidation
    rw [CreateOp.run_of_checked op env opts w h]
    have hc := getClient_calls env opts w
    rcases hg : getClient env opts w with ⟨w1, e | client⟩
    · rw [hg] at hc
      simp only at hc ⊢
      rw [hc]
      exact calls_append_ne _ _ _
    · rw [hg] at hc
      simp only at hc ⊢
      rw [call_calls, hc, List.append_assoc]
      exact calls_append_ne _ _ _
  refine ⟨⟨fun hp => ?_, key⟩, fun h w1 client hg => ?_⟩
  · by_contra hn
    push_neg at hn
    obtain ⟨f, _, _, hr⟩ := CreateOp.run_of_empty op env opts w hn
    exact hp (by rw [hr])
  · rw [CreateOp.run_of_checked op env opts w h, hg]

theorem create_validation_exact_witness :
    (∀ f ∈ CreateOp.checked .web, f.2 exampleOptions ≠ "") ∧
    CreateOp.passesLocalValidation .web exampleEnv exampleOptions emptyWorld ∧
    CreateOp.run .web exampleEnv exampleOptions emptyWorld =
      call (CreateOp.remoteCall .web exampleOptions)
        (CreateOp.remote .web exampleEnv exampleClient exampleOptions)
        (getClient exampleEnv exampleOptions emptyWorld).1 :=
  have h : ∀ f ∈ CreateOp.checked .web, f.2 exampleOptions ≠ "" := by
    simp [CreateOp.checked, exampleOptions]
  ⟨h, (create_validation_exact .web exampleEnv exampleOptions emptyWorld).1.2 h,
    (create_validation_exact .web exampleEnv exampleOptions emptyWorld).2 h _ _ rfl⟩

/-- C9: the explicit override has precedence over the provider.  With a
non-empty `-u` user, `getMyEmail` returns that value unchanged, with no error
and without touching the world (the provider is not queried); with an empty
one it is exactly the provider's `GetEmailAddress` call, whose value or error
it returns. -/
theorem getMyEmail_override_precedence (env : Env ρ) (opts : Options) (client : Client)
    (w : World ρ) :
    (opts.User ≠ "" → getMyEmail env opts client w = (w, .ok opts.User)) ∧
    (opts.User = "" →
      getMyEmail env opts client w =
        ({ w with outside := (env.GetEmailAddress client w.outside).1,
                  calls := w.calls ++ [Call.GetEmailAddress] },
         (env.GetEmailAddress client w.outside).2)) := by
  constructor
  · intro h
    simp [getMyEmail, h]
  · intro h
    simp [getMyEmail, h, call]

theorem getMyEmail_override_precedence_witness :
    (exampleOptions.User ≠ "" ∧
      getMyEmail exampleEnv exampleOptions (freshClient "t") emptyWorld =
        (emptyWorld, .ok "alice@example.com")) ∧
    (optionsNoUser.User = "" ∧
      (getMyEmail exampleEnv optionsNoUser (freshClient "t") emptyWorld).1.calls =
        [Call.GetEmailAddress]) :=
  ⟨⟨by decide,
    (getMyEmail_override_precedence exampleEnv exampleOptions (freshClient "t")
      emptyWorld).1 (by decide)⟩,
   ⟨rfl,
    congrArg (fun r => r.1.calls)
      ((getMyEmail_override_precedence exampleEnv optionsNoUser (freshClient "t")
        emptyWorld).2 rfl)⟩⟩

/-- C10: `revokeAll` demands an identity it never uses.  For a non-empty user:
with an empty identity it stops with `Must specify identity` in the world it
was given (no collaborator call); for any two non-empty identity values,
everything else equal, the final world (trace and outside state) and the
result are the same; and when `getClient` yields a client the calls made are
the client construction followed by the single remote call `RevokeAll(user)`,
whose result is returned, whatever the identity is. -/
theorem revokeAll_ignores_identity (env : Env ρ) (opts : Options) (w : World ρ)
    (hU : opts.User ≠ "") :
    (revokeAll env { opts with Identity := "" } w = (w, some "Must specify identity")) ∧
    (∀ i j : String, i ≠ "" → j ≠ "" →
      revokeAll env { opts with Identity := i } w =
        revokeAll env { opts with Identity := j } w) ∧
    (∀ i : String, i ≠ "" → ∀ w1 client, getClient env opts w = (w1, .ok client) →
      revokeAll env { opts with Identity := i } w =
          call (.RevokeAll opts.User) (env.RevokeAll client opts.User) w1 ∧
      (revokeAll env { opts with Identity := i } w).1.calls =
          w.calls ++ [clientCall opts, Call.RevokeAll opts.User]) := by
  have step : ∀ i : String, i ≠ "" →
      revokeAll env { opts with Identity := i } w =
        match getClient env opts w with
        | (w1, .error e) => (w1, some e)
        | (w1, .ok client) =>
          call (.RevokeAll opts.User) (env.RevokeAll client opts.User) w1 :=
    fun i hi => revokeAll_of_checked env { opts with Identity := i } w hU hi
  refine ⟨by simp [revokeAll, hU], fun i j hi hj => by rw [step i hi, step j hj],
    fun i hi w1 client hg => ?_⟩
  have hc := getClient_calls env opts w
  rw [hg] at hc
  simp only at hc
  rw [step i hi, hg]
  refine ⟨rfl, ?_⟩
  simp only [call_calls, hc, List.append_assoc, List.singleton_append]

theorem revokeAll_ignores_identity_witness :
    exampleOptions.User ≠ "" ∧
    (revokeAll exampleEnv { exampleOptions with Identity := "" } emptyWorld).2 =
      some "Must specify identity" ∧
    (revokeAll exampleEnv { exampleOptions with Identity := "a" } emptyWorld).1.calls =
      [Call.NewClientFromTokenFile ".credentials-cli-auth",
       Call.RevokeAll "alice@example.com"] ∧
    revokeAll exampleEnv { exampleOptions with Identity := "a" } emptyWorld =
      revokeAll exampleEnv { exampleOptions with Identity := "b" } emptyWorld :=
  ⟨by decide,
   congrArg Prod.snd
     (revokeAll_ignores_identity exampleEnv exampleOptions emptyWorld (by decide)).1,
   ((revokeAll_ignores_identity exampleEnv exampleOptions emptyWorld (by decide)).2.2
      "a" (by decide) _ _ rfl).2,
   (revokeAll_ignores_identity exampleEnv exampleOptions emptyWorld (by decide)).2.1
      "a" "b" (by decide) (by decide)⟩

/-- C1: lookup by id is total.  Once the index is fetched: for every credential
`c` of the index, looking up `c.GetId` selects a credential of the index whose
`GetId` is the requested id (it is `c` itself when the ids of the index are
pairwise distinct), and `downloadCredential` and `listFormats` go on with that
credential; and for every id that no credential of the index has (every id,
when the index is empty), both functions fail with `Credential not found` in
the world the index query left, in which no `Get` or `GetFormats` call has
been added to the trace. -/
theorem lookup_total (env : Env ρ) (opts : Options) (w : World ρ) (client : Client)
    (w3 : World ρ) (credlist : List (Credential ρ))
    (h : IndexFetched env opts w client w3 credlist) :
    (∀ c ∈ credlist, ∃ s ∈ credlist,
      s.GetId = c.GetId ∧
      ((credlist.map Credential.GetId).Nodup → s = c) ∧
      selectCredential credlist c.GetId = some s ∧
      downloadCredential env opts c.GetId w = downloadSelected opts client s w3 ∧
      listFormats env opts c.GetId w = listSelected s w3) ∧
    (∀ credName, (∀ c ∈ credlist, c.GetId ≠ credName) →
      downloadCredential env opts credName w = (w3, some "Credential not found") ∧
      listFormats env opts credName w = (w3, some "Credential not found") ∧
      w3.calls.filter Call.isFetch = w.calls.filter Call.isFetch) := by
  constructor
  · intro c hc
    obtain ⟨i, s, _, _, _, hsel⟩ := selectCredential_last credlist c.GetId ⟨c, hc, rfl⟩
    obtain ⟨hmem, hid⟩ := selectCredential_mem credlist c.GetId s hsel
    refine ⟨s, hmem, hid, fun hnd => List.inj_on_of_nodup_map hnd hmem hc hid, hsel, ?_, ?_⟩
    · rw [downloadCredential_of_index env opts w client w3 credlist c.GetId h, hsel]
    · rw [listFormats_of_index env opts w client w3 credlist c.GetId h, hsel]
  · intro credName hno
    have hsel := selectCredential_none credlist credName hno
    refine ⟨?_, ?_, IndexFetched.no_fetch env opts w client w3 credlist h⟩
    · rw [downloadCredential_of_index env opts w client w3 credlist credName h, hsel]
    · rw [listFormats_of_index env opts w client w3 credlist credName h, hsel]

theorem lookup_total_witness :
    IndexFetched exampleEnv exampleOptions emptyWorld exampleClient indexedWorld
      [webCred, vpnCred] ∧
    (∃ s ∈ [webCred, vpnCred],
      s.GetId = vpnCred.GetId ∧
      (([webCred, vpnCred].map Credential.GetId).Nodup → s = vpnCred) ∧
      selectCredential [webCred, vpnCred] vpnCred.GetId = some s ∧
      downloadCredential exampleEnv exampleOptions vpnCred.GetId emptyWorld =
        downloadSelected exampleOptions exampleClient s indexedWorld ∧
      listFormats exampleEnv exampleOptions vpnCred.GetId emptyWorld =
        listSelected s indexedWorld) ∧
    (downloadCredential exampleEnv exampleOptions "mail1" emptyWorld =
        (indexedWorld, some "Credential not found") ∧
      listFormats exampleEnv exampleOptions "mail1" emptyWorld =
        (indexedWorld, some "Credential not found") ∧
      indexedWorld.calls.filter Call.isFetch = emptyWorld.calls.filter Call.isFetch) :=
  have h : IndexFetched exampleEnv exampleOptions emptyWorld exampleClient indexedWorld
      [webCred, vpnCred] := ⟨_, _, _, rfl, rfl, rfl⟩
  ⟨h,
   (lookup_total exampleEnv exampleOptions emptyWorld exampleClient indexedWorld
      [webCred, vpnCred] h).1 vpnCred (by simp),
   (lookup_total exampleEnv exampleOptions emptyWorld exampleClient indexedWorld
      [webCred, vpnCred] h).2 "mail1" (by
        intro c hc
        simp only [List.mem_cons, List.mem_singleton, List.not_mem_nil, or_false] at hc
        rcases hc with rfl | rfl <;> decide)⟩

/-- C2: with several credentials of the same id, the last match wins.  Once
the index is fetched, for every id that some entry of the index has, there is a
position `i` holding an entry `s` with exactly that id such that no later
position holds an entry with that id, the selection loop returns `s`, and both
`downloadCredential` and `listFormats` go on with `s`. -/
theorem lookup_last_match_wins (env : Env ρ) (opts : Options) (w : World ρ)
    (client : Client) (w3 : World ρ) (credlist : List (Credential ρ)) (credName : String)
    (h : IndexFetched env opts w client w3 credlist)
    (hm : ∃ c ∈ credlist, c.GetId = credName) :
    ∃ (i : Nat) (s : Credential ρ), credlist[i]? = some s ∧ s.GetId = credName ∧
      (∀ (j : Nat) (c : Credential ρ), i < j → credlist[j]? = some c →
        c.GetId ≠ credName) ∧
      selectCredential credlist credName = some s ∧
      downloadCredential env opts credName w = downloadSelected opts client s w3 ∧
      listFormats env opts credName w = listSelected s w3 := by
  obtain ⟨i, s, hi, hs, hlast, hsel⟩ := selectCredential_last credlist credName hm
  refine ⟨i, s, hi, hs, hlast, hsel, ?_, ?_⟩
  · rw [downloadCredential_of_index env opts w client w3 credlist credName h, hsel]
  · rw [listFormats_of_index env opts w client w3 credlist credName h, hsel]

theorem lookup_last_match_wins_witness :
    IndexFetched duplicateEnv exampleOptions emptyWorld exampleClient indexedWorld
      [webCred, webCredAgain, vpnCred] ∧
    (∃ c ∈ [webCred, webCredAgain, vpnCred], c.GetId = "web1") ∧
    ∃ (i : Nat) (s : Credential (List String)),
      [webCred, webCredAgain, vpnCred][i]? = some s ∧ s.GetId = "web1" ∧
      (∀ (j : Nat) (c : Credential (List String)), i < j →
        [webCred, webCredAgain, vpnCred][j]? = some c → c.GetId ≠ "web1") ∧
      selectCredential [webCred, webCredAgain, vpnCred] "web1" = some s ∧
      downloadCredential duplicateEnv exampleOptions "web1" emptyWorld =
        downloadSelected exampleOptions exampleClient s indexedWorld ∧
      listFormats duplicateEnv exampleOptions "web1" emptyWorld =
        listSelected s indexedWorld :=
  have h : IndexFetched duplicateEnv exampleOptions emptyWorld exampleClient indexedWorld
      [webCred, webCredAgain, vpnCred] := ⟨_, _, _, rfl, rfl, rfl⟩
  have hm : ∃ c ∈ [webCred, webCredAgain, vpnCred], c.GetId = "web1" :=
    ⟨webCred, by simp, rfl⟩
  ⟨h, hm,
   lookup_last_match_wins duplicateEnv exampleOptions emptyWorld exampleClient indexedWorld
     [webCred, webCredAgain, vpnCred] "web1" h hm⟩

/-- C5, as stated, fails: `webCred` is selected, `der` is not among the ids of
its formats, and `downloadCredential` still invokes its `Get` with `der`; the
error returned is the one `Get` itself produced. -/
theorem download_unlisted_format_counterexample :
    (selectCredential [webCred, vpnCred] "web1").map Credential.GetId = some "web1" ∧
    "der" ∉ webCred.GetFormats.map Format.Id ∧
    Call.Get "web1" "der" ∈ (downloadCredential exampleEnv optionsDer "web1" emptyWorld).1.calls ∧
    (downloadCredential exampleEnv optionsDer "web1" emptyWorld).2 =
      some "Output format not known" :=
  ⟨by decide, by decide, by decide, by decide⟩

/-- C5, amended: the requested format is judged by `Get` alone.  For every
credential selected by `downloadCredential` and every requested output format,
listed by `GetFormats` or not, `downloadCredential` invokes the credential's
`Get` with that format, once, right after the index query, and makes no other
call; when `Get` fails its error is returned unchanged, and when it succeeds
its payloads are delivered. -/
theorem download_format_left_to_get (env : Env ρ) (opts : Options) (w : World ρ)
    (client : Client) (w3 : World ρ) (credlist : List (Credential ρ)) (credName : String)
    (selected : Credential ρ) (h : IndexFetched env opts w client w3 credlist)
    (hs : selectCredential credlist credName = some selected) :
    (downloadCredential env opts credName w).1.calls =
      w3.calls ++ [Call.Get selected.GetId opts.OutputFormat] ∧
    (∀ e, (selected.Get client opts.OutputFormat w3.outside).2 = .error e →
      (downloadCredential env opts credName w).2 = some e) ∧
    (∀ pays, (selected.Get client opts.OutputFormat w3.outside).2 = .ok pays →
      downloadCredential env opts credName w =
        deliver pays
          (call (Call.Get selected.GetId opts.OutputFormat)
            (selected.Get client opts.OutputFormat) w3).1) := by
  rw [downloadCredential_of_index env opts w client w3 credlist credName h, hs]
  simp only [downloadSelected, call]
  cases hg : (selected.Get client opts.OutputFormat w3.outside).2 with
  | error e =>
    refine ⟨rfl, ?_, ?_⟩
    · intro e1 h1
      cases h1
      rfl
    · intro pays h1
      cases h1
  | ok pays =>
    refine ⟨?_, ?_, ?_⟩
    · simp only [deliver_calls]
    · intro e1 h1
      cases h1
    · intro pays1 h1
      cases h1
      rfl

theorem download_format_left_to_get_witness :
    IndexFetched exampleEnv optionsDer emptyWorld exampleClient indexedWorld
      [webCred, vpnCred] ∧
    selectCredential [webCred, vpnCred] "web1" = some webCred ∧
    (downloadCredential exampleEnv optionsDer "web1" emptyWorld).1.calls =
      indexedWorld.calls ++ [Call.Get webCred.GetId optionsDer.OutputFormat] ∧
    (downloadCredential exampleEnv optionsDer "web1" emptyWorld).2 =
      some "Output format not known" :=
  have h : IndexFetched exampleEnv optionsDer emptyWorld exampleClient indexedWorld
      [webCred, vpnCred] := ⟨_, _, _, rfl, rfl, rfl⟩
  ⟨h, rfl,
   (download_format_left_to_get exampleEnv optionsDer emptyWorld exampleClient indexedWorld
      [webCred, vpnCred] "web1" webCred h rfl).1,
   (download_format_left_to_get exampleEnv optionsDer emptyWorld exampleClient indexedWorld
      [webCred, vpnCred] "web1" webCred h rfl).2.1 "Output format not known" rfl⟩

/-- C6, as stated, fails: the key file held four bytes, the write of the
three-byte key fails after one byte, and `downloadCredential` reports success
while the file is left with that single byte: neither the payload's data nor
the previous content. -/
theorem store_delivery_not_atomic_counterexample :
    writeFaultWorld.files "web1.key" = some [9, 9, 9, 9] ∧
    (downloadCredential exampleEnv exampleOptions "web1" writeFaultWorld).2 = none ∧
    (downloadCredential exampleEnv exampleOptions "web1" writeFaultWorld).1.files "web1.key" =
      some [1] ∧
    (deliver [keyPayload] writeFaultWorld).2 = none ∧
    (deliver [keyPayload] writeFaultWorld).1.files "web1.key" = some [1] :=
  ⟨by decide, by decide, by decide, by decide, by decide⟩

/-- C6, amended: delivery of a `store` payload is all-or-nothing with respect
to a failure of `os.Create`.  When `os.Create` fails, the loop stops and
returns that error, and every file and the output are as before.  When
`os.Create` and the write both succeed, the loop goes on in a world in which
the file named `Filename` holds exactly the payload's bytes, every other file
is as before, and the line `<Description> written to <Filename>` has been
printed.  Nothing is stated for a failing write. -/
theorem store_delivery_outcomes (pay : Payload) (rest : List Payload) (w : World ρ)
    (hs : pay.Disposition = "store") :
    (∀ e, pending w.createFaults = some e →
      (deliver (pay :: rest) w).2 = some e ∧
      (deliver (pay :: rest) w).1.files = w.files ∧
      (deliver (pay :: rest) w).1.stdout = w.stdout) ∧
    (pending w.createFaults = none → pending w.writeFaults = none →
      ∃ w1 : World ρ, deliver (pay :: rest) w = deliver rest w1 ∧
        w1.files = setFile w.files pay.Filename pay.Payload ∧
        w1.stdout = w.stdout ++ (pay.Description ++ " written to " ++ pay.Filename ++ "\n")) := by
  constructor
  · intro e he
    rw [deliver_cons_create_failed pay rest w e hs he]
    exact ⟨rfl, rfl, rfl⟩
  · intro hc hw
    refine ⟨_, deliver_cons_stored pay rest w hs hc, ?_, ?_⟩
    · simp only [printf, fileWrite, hw, setFile_setFile]
    · simp only [printf, fileWrite, hw]

theorem store_delivery_outcomes_witness :
    keyPayload.Disposition = "store" ∧
    (pending createFaultWorld.createFaults = some "permission denied" ∧
      (deliver [keyPayload] createFaultWorld).2 = some "permission denied" ∧
      (deliver [keyPayload] createFaultWorld).1.files = createFaultWorld.files ∧
      (deliver [keyPayload] createFaultWorld).1.stdout = createFaultWorld.stdout) ∧
    (pending emptyWorld.createFaults = none ∧ pending emptyWorld.writeFaults = none ∧
      ∃ w1 : World (List String), deliver [keyPayload] emptyWorld = deliver [] w1 ∧
        w1.files = setFile emptyWorld.files keyPayload.Filename keyPayload.Payload ∧
        w1.stdout = emptyWorld.stdout ++
          (keyPayload.Description ++ " written to " ++ keyPayload.Filename ++ "\n")) :=
  ⟨rfl,
   ⟨rfl, (store_delivery_outcomes keyPayload [] createFaultWorld rfl).1 "permission denied" rfl⟩,
   ⟨rfl, rfl, (store_delivery_outcomes keyPayload [] emptyWorld rfl).2 rfl rfl⟩⟩

/-- C7: payloads are delivered in the order `Get` returned them and routed by
disposition.  For every payload sequence, when no file operation fails, the
delivery loop succeeds and leaves (a) an output equal to the previous output
followed by the lines of the payloads in order, `<Description> written to
<Filename>` for a `store` payload and `<Description>: <Payload as text>` for a
`show` payload, and (b) the initial files with, in order, the file named by
each `store` payload set to exactly its bytes, so that a `show` payload (like
a payload of any other disposition, which also prints nothing) changes no
file. -/
theorem deliver_in_order (pays : List Payload) (w : World ρ) (h : w.noFaults) :
    (deliver pays w).2 = none ∧
    (deliver pays w).1.stdout = w.stdout ++ deliveryOutput pays ∧
    (deliver pays w).1.files = deliveredFiles w.files pays := by
  induction pays generalizing w with
  | nil => exact ⟨rfl, by simp [deliver, deliveryOutput], rfl⟩
  | cons pay rest ih =>
    by_cases hs : pay.Disposition = "store"
    · have hc := pending_of_all_none w.createFaults h.1
      have hw := pending_of_all_none w.writeFaults h.2
      rw [deliver_cons_stored pay rest w hs hc]
      have hq : (printf (pay.Description ++ " written to " ++ pay.Filename ++ "\n")
          (fileWrite pay.Filename pay.Payload
            { w with createFaults := w.createFaults.tail,
                     files := setFile w.files pay.Filename [] }).1).noFaults := by
        simp only [printf, fileWrite, hw]
        exact ⟨fun x hx => h.1 x (List.mem_of_mem_tail hx),
          fun x hx => h.2 x (List.mem_of_mem_tail hx)⟩
      obtain ⟨h1, h2, h3⟩ := ih _ hq
      refine ⟨h1, ?_, ?_⟩
      · rw [h2]
        simp only [printf, fileWrite, hw, deliveryOutput, deliveryLine, hs, if_true,
          String.append_assoc]
      · rw [h3]
        simp only [printf, fileWrite, hw, setFile_setFile, deliveredFiles, hs,
          List.filter_cons, decide_True, if_true, List.foldl_cons]
    · by_cases hh : pay.Disposition = "show"
      · rw [deliver_cons_shown pay rest w hh]
        obtain ⟨h1, h2, h3⟩ :=
          ih (printf (pay.Description ++ ": " ++ goString pay.Payload ++ "\n") w) h
        have hne : ¬ ("show" = "store") := by decide
        refine ⟨h1, ?_, ?_⟩
        · rw [h2]
          simp only [printf, deliveryOutput, deliveryLine, hh, hne, if_true, if_false,
            String.append_assoc]
        · rw [h3]
          simp only [printf, deliveredFiles, hs, List.filter_cons, decide_False]
          rfl
      · rw [deliver_cons_skipped pay rest w hs hh]
        obtain ⟨h1, h2, h3⟩ := ih w h
        refine ⟨h1, ?_, ?_⟩
        · rw [h2]
          simp only [deliveryOutput, deliveryLine, hs, hh, if_false, String.empty_append]
        · rw [h3]
          simp only [deliveredFiles, hs, List.filter_cons, decide_False]
          rfl

theorem deliver_in_order_witness :
    emptyWorld.noFaults ∧
    ((deliver [certPayload, keyPayload] emptyWorld).2 = none ∧
      (deliver [certPayload, keyPayload] emptyWorld).1.stdout =
        emptyWorld.stdout ++ deliveryOutput [certPayload, keyPayload] ∧
      (deliver [certPayload, keyPayload] emptyWorld).1.files =
        deliveredFiles emptyWorld.files [certPayload, keyPayload]) ∧
    (deliver [certPayload, keyPayload] emptyWorld).1.stdout =
      "Certificate: --\nPrivate key written to web1.key\n" ∧
    (deliver [certPayload, keyPayload] emptyWorld).1.files "web1.key" = some [1, 2, 3] :=
  ⟨emptyWorld_noFaults,
   deliver_in_order [certPayload, keyPayload] emptyWorld emptyWorld_noFaults,
   by decide, by decide⟩

/-- C8, as stated, fails: `revokeAll` returns one error value.  With a remote
`RevokeAll` that revokes web and probe and fails on VPN, the result is the
single error the call reported, and it is the same result as with a remote
side that revoked nothing, although the revoked types differ. -/
theorem revokeAll_single_error_counterexample :
    (revokeAll vpnFailsEnv exampleOptions emptyWorld).1.outside = ["web", "probe"] ∧
    (revokeAll nothingRevokedEnv exampleOptions emptyWorld).1.outside = [] ∧
    (revokeAll vpnFailsEnv exampleOptions emptyWorld).2 = some "revocation failed" ∧
    (revokeAll nothingRevokedEnv exampleOptions emptyWorld).2 =
      (revokeAll vpnFailsEnv exampleOptions emptyWorld).2 :=
  ⟨by decide, by decide, by decide, by decide⟩

/-- C8, amended: `revokeAll` reports a single error value, not per-type
outcomes.  With a non-empty user and identity and a client that `getClient`
could build, it makes exactly one remote call, `RevokeAll(user)`, after the
client construction, and its result is that call's error value, unchanged
(`nil` when the call reports success); what the call did remotely is its
effect on the outside state and is not part of the result. -/
theorem revokeAll_single_result (env : Env ρ) (opts : Options) (w w1 : World ρ)
    (client : Client) (hU : opts.User ≠ "") (hI : opts.Identity ≠ "")
    (hg : getClient env opts w = (w1, .ok client)) :
    (revokeAll env opts w).2 = (env.RevokeAll client opts.User w1.outside).2 ∧
    (revokeAll env opts w).1.outside = (env.RevokeAll client opts.User w1.outside).1 ∧
    (revokeAll env opts w).1.calls = w.calls ++ [clientCall opts, Call.RevokeAll opts.User] := by
  have hc := getClient_calls env opts w
  rw [hg] at hc
  simp only at hc
  rw [revokeAll_of_checked env opts w hU hI, hg]
  refine ⟨rfl, rfl, ?_⟩
  simp only [call_calls, hc, List.append_assoc, List.singleton_append]

theorem revokeAll_single_result_witness :
    exampleOptions.User ≠ "" ∧ exampleOptions.Identity ≠ "" ∧
    (revokeAll vpnFailsEnv exampleOptions emptyWorld).2 =
      (vpnFailsEnv.RevokeAll exampleClient exampleOptions.User
        (getClient vpnFailsEnv exampleOptions emptyWorld).1.outside).2 ∧
    (revokeAll vpnFailsEnv exampleOptions emptyWorld).1.outside =
      (vpnFailsEnv.RevokeAll exampleClient exampleOptions.User
        (getClient vpnFailsEnv exampleOptions emptyWorld).1.outside).1 ∧
    (revokeAll vpnFailsEnv exampleOptions emptyWorld).1.calls =
      emptyWorld.calls ++ [clientCall exampleOptions, Call.RevokeAll exampleOptions.User] :=
  ⟨by decide, by decide,
   revokeAll_single_result vpnFailsEnv exampleOptions emptyWorld _ exampleClient
     (by decide) (by decide) rfl⟩

end CredentialsCli
